import Mathlib

/-!
Verification development for the duckagent repository: a shallow embedding of
its router, planner, local orchestrator, decision-to-payload mapping helper and
graph-adapter fallback path, together with theorems checking the
natural-language specification against the code.

Modelling conventions used throughout:
* Python JSON-like values are modelled by the mutual inductive `JValue`;
  Python dicts are ordered key/value lists.
* Machine floats appearing only as fixed confidence literals are modelled as
  rationals with the same decimal value.
* External collaborators (the LLM client, the DuckDB connection handle, the
  pandas describe computation, the stdlib JSON parser) are modelled as
  explicit function parameters: an LLM is a function from prompt and token
  budget to an optional completion (`none` models a raised exception), a
  connection maps an SQL string to an outcome, and JSON parsing is an
  arbitrary function `String -> Option JValue` quantified in the theorems.
* A Python function that can raise is embedded with an `Except String` result.
-/

/-- ASCII lowercase of one character, modelling Python `str.lower` on the
ASCII inputs this code handles. -/
def lowerCh (c : Char) : Char :=
  if c ≥ 'A' && c ≤ 'Z' then Char.ofNat (c.toNat + 32) else c

/-- ASCII lowercase of a string. -/
def pyLower (s : String) : String :=
  ⟨s.data.map lowerCh⟩

/-- Python whitespace characters stripped by `str.strip`. -/
def isPyWs (c : Char) : Bool :=
  c == ' ' || c == '\t' || c == '\n' || c == '\r' || c == '\x0b' || c == '\x0c'

/-- Embedding of Python `str.strip()`. -/
def pyStrip (s : String) : String :=
  ⟨((s.data.dropWhile isPyWs).reverse.dropWhile isPyWs).reverse⟩

/-- Embedding of Python `str.rstrip(";")`: drop all trailing semicolons. -/
def rstripSemi (s : String) : String :=
  ⟨(s.data.reverse.dropWhile (fun c => c == ';')).reverse⟩

/-- Word characters of the regex class used by the router patterns, restricted
to ASCII as all pattern literals are ASCII. -/
def isWordChar (c : Char) : Bool :=
  (c ≥ 'a' && c ≤ 'z') || (c ≥ 'A' && c ≤ 'Z') || (c ≥ '0' && c ≤ '9') || c == '_'

/-- Does the word list `w` match a prefix of `t`, with a word boundary right
after the match (end of text or a non-word character)? -/
def wordTail : List Char → List Char → Bool
  | [], [] => true
  | [], c :: _ => !isWordChar c
  | _ :: _, [] => false
  | c :: cs, d :: ds => c == d && wordTail cs ds

/-- Is the position after `prev` a valid word-boundary start (text start or a
preceding non-word character)?  All router alternatives start with a word
character, so this is the `\b` condition before the match. -/
def startOk : Option Char → Bool
  | none => true
  | some c => !isWordChar c

/-- Search for any of the words of `ws`, delimited by word boundaries, at any
position of the text; `prev` is the character just before the current
position.  This embeds `re.search` of an alternation wrapped in word
boundaries. -/
def patSearchL (ws : List String) : Option Char → List Char → Bool
  | prev, [] => ws.any (fun w => startOk prev && wordTail w.data [])
  | prev, c :: ts =>
      ws.any (fun w => startOk prev && wordTail w.data (c :: ts)) ||
        patSearchL ws (some c) ts

/-- Word-boundary search over a whole string. -/
def reSearch (ws : List String) (s : String) : Bool :=
  patSearchL ws none s.data

/-- Does `t` start with `sub`? -/
def hasPrefixB : List Char → List Char → Bool
  | [], _ => true
  | _ :: _, [] => false
  | c :: cs, d :: ds => c == d && hasPrefixB cs ds

/-- Does `t` contain `sub` as a contiguous substring (the Python `in`
operator on strings)? -/
def subStrL (sub : List Char) : List Char → Bool
  | [] => hasPrefixB sub []
  | d :: ds => hasPrefixB sub (d :: ds) || subStrL sub ds

/-- String-level substring containment. -/
def subStr (sub s : String) : Bool :=
  subStrL sub.data s.data

/-- Characters admitted by the secret-token character class
`[A-Za-z0-9_\-]`. -/
def isTokChar (c : Char) : Bool :=
  (c ≥ 'a' && c ≤ 'z') || (c ≥ 'A' && c ≤ 'Z') || (c ≥ '0' && c ≤ '9') ||
    c == '_' || c == '-'

/-- Does the text start with `sk-` followed by at least eight characters of
the secret-token class? -/
def skAt : List Char → Bool
  | 's' :: 'k' :: '-' :: rest => (rest.take 8).length == 8 && (rest.take 8).all isTokChar
  | _ => false

/-- Search anywhere in the character list for the secret-token shape. -/
def skSearchL : List Char → Bool
  | [] => false
  | c :: ts => skAt (c :: ts) || skSearchL ts

/-- Embedding of the regex search `sk-[A-Za-z0-9_\-]\x7b8,\x7d` used by
`_redact_value`. -/
def skSearch (s : String) : Bool :=
  skSearchL s.data

mutual

/-- JSON-like Python values: strings, integers, booleans, `None`, lists and
dicts (ordered key/value sequences with distinct keys). -/
inductive JValue where
  | str (s : String)
  | int (n : Int)
  | bool (b : Bool)
  | null
  | arr (l : JList)
  | obj (o : JObj)
  deriving DecidableEq

/-- A list of JSON-like values. -/
inductive JList where
  | nil
  | cons (v : JValue) (t : JList)
  deriving DecidableEq

/-- An ordered dict of JSON-like values. -/
inductive JObj where
  | nil
  | cons (k : String) (v : JValue) (t : JObj)
  deriving DecidableEq

end

/-- Build a `JList` from a Lean list. -/
def JList.ofList : List JValue → JList
  | [] => .nil
  | v :: t => .cons v (JList.ofList t)

/-- Build a `JObj` from a Lean association list. -/
def JObj.ofList : List (String × JValue) → JObj
  | [] => .nil
  | (k, v) :: t => .cons k v (JObj.ofList t)

/-- Dict lookup; keys of a well-formed dict are distinct so the first match is
the stored value. -/
def JObj.get : JObj → String → Option JValue
  | .nil, _ => none
  | .cons k v t, key => if k == key then some v else JObj.get t key

/-- Python truthiness of a JSON-like value. -/
def truthyJ : JValue → Bool
  | .str s => s ≠ ""
  | .int n => n ≠ 0
  | .bool b => b
  | .null => false
  | .arr l => match l with | .nil => false | .cons _ _ => true
  | .obj o => match o with | .nil => false | .cons _ _ _ => true

/-- The fixed redaction marker. -/
def redactMarker : String := "<REDACTED>"

/-- The key substrings that force redaction, in source order. -/
def secretSubs : List String := ["key", "secret", "token", "password", "api"]

/-- Does the lowercased key contain one of the secret substrings?  Embeds the
key test of `_redact`. -/
def secretKeyHit (k : String) : Bool :=
  secretSubs.any (fun s => subStr s (pyLower k))

/-- Embedding of `_redact_value`: redact secret-shaped string leaves, leave
every other leaf unchanged. -/
def redactValue : JValue → JValue
  | .str s => if skSearch s then .str redactMarker else .str s
  | v => v

mutual

/-- Embedding of `_redact`: recursive redaction of dicts and lists. -/
def redact : JValue → JValue
  | .obj o => .obj (redactObj o)
  | .arr l => .arr (redactList l)
  | .str s => redactValue (.str s)
  | .int n => redactValue (.int n)
  | .bool b => redactValue (.bool b)
  | .null => redactValue .null

/-- Redaction mapped over a list. -/
def redactList : JList → JList
  | .nil => .nil
  | .cons v t => .cons (redact v) (redactList t)

/-- Redaction over the entries of a dict: a secret-hit key has its whole value
replaced by the marker, any other value is redacted recursively. -/
def redactObj : JObj → JObj
  | .nil => .nil
  | .cons k v t =>
      if secretKeyHit k then .cons k (.str redactMarker) (redactObj t)
      else .cons k (redact v) (redactObj t)

end

/-- Is this value exactly the redaction marker string? -/
def isMarker : JValue → Bool
  | .str s => s == redactMarker
  | _ => false

mutual

/-- Specification predicate: no secret remains exposed.  Every dict entry with
a secret-hit key holds the marker, every other entry is recursively clean,
and no string leaf matches the secret-token shape. -/
def cleanJ : JValue → Bool
  | .obj o => cleanObj o
  | .arr l => cleanList l
  | .str s => !skSearch s
  | _ => true

/-- List version of `cleanJ`. -/
def cleanList : JList → Bool
  | .nil => true
  | .cons v t => cleanJ v && cleanList t

/-- Dict version of `cleanJ`. -/
def cleanObj : JObj → Bool
  | .nil => true
  | .cons k v t =>
      (if secretKeyHit k then isMarker v else cleanJ v) && cleanObj t

end

mutual

/-- Specification predicate: the value contains no secret-hit key and no
secret-shaped string leaf anywhere, so redaction should not touch it. -/
def untouchedJ : JValue → Bool
  | .obj o => untouchedObj o
  | .arr l => untouchedList l
  | .str s => !skSearch s
  | _ => true

/-- List version of `untouchedJ`. -/
def untouchedList : JList → Bool
  | .nil => true
  | .cons v t => untouchedJ v && untouchedList t

/-- Dict version of `untouchedJ`. -/
def untouchedObj : JObj → Bool
  | .nil => true
  | .cons k v t => !secretKeyHit k && untouchedJ v && untouchedObj t

end

/-- The marker string contains no secret-token shape. -/
theorem skSearch_marker : skSearch redactMarker = false := by decide

mutual

/-- Redaction output is always clean. -/
theorem cleanJ_redact : ∀ v : JValue, cleanJ (redact v) = true
  | .obj o => by simp [redact, cleanJ, cleanObj_redactObj o]
  | .arr l => by simp [redact, cleanJ, cleanList_redactList l]
  | .str s => by
      by_cases h : skSearch s = true
      · simp [redact, redactValue, h, cleanJ, skSearch_marker]
      · simp only [Bool.not_eq_true] at h
        simp [redact, redactValue, h, cleanJ]
  | .int n => by simp [redact, redactValue, cleanJ]
  | .bool b => by simp [redact, redactValue, cleanJ]
  | .null => by simp [redact, redactValue, cleanJ]

/-- List version of `cleanJ_redact`. -/
theorem cleanList_redactList : ∀ l : JList, cleanList (redactList l) = true
  | .nil => by simp [redactList, cleanList]
  | .cons v t => by
      simp [redactList, cleanList, cleanJ_redact v, cleanList_redactList t]

/-- Dict version of `cleanJ_redact`. -/
theorem cleanObj_redactObj : ∀ o : JObj, cleanObj (redactObj o) = true
  | .nil => by simp [redactObj, cleanObj]
  | .cons k v t => by
      by_cases h : secretKeyHit k = true
      · simp [redactObj, cleanObj, h, isMarker, cleanObj_redactObj t]
      · simp only [Bool.not_eq_true] at h
        simp [redactObj, cleanObj, h, cleanJ_redact v, cleanObj_redactObj t]

end

mutual

/-- Redaction does not change a value with no secret-hit key and no
secret-shaped string leaf. -/
theorem redact_untouched : ∀ v : JValue, untouchedJ v = true → redact v = v
  | .obj o => by
      intro h
      simp only [untouchedJ] at h
      simp [redact, redactObj_untouched o h]
  | .arr l => by
      intro h
      simp only [untouchedJ] at h
      simp [redact, redactList_untouched l h]
  | .str s => by
      intro h
      simp only [untouchedJ, Bool.not_eq_true'] at h
      simp [redact, redactValue, h]
  | .int n => fun _ => by simp [redact, redactValue]
  | .bool b => fun _ => by simp [redact, redactValue]
  | .null => fun _ => by simp [redact, redactValue]

/-- List version of `redact_untouched`. -/
theorem redactList_untouched : ∀ l : JList, untouchedList l = true → redactList l = l
  | .nil => fun _ => rfl
  | .cons v t => by
      intro h
      simp only [untouchedList, Bool.and_eq_true] at h
      simp [redactList, redact_untouched v h.1, redactList_untouched t h.2]

/-- Dict version of `redact_untouched`. -/
theorem redactObj_untouched : ∀ o : JObj, untouchedObj o = true → redactObj o = o
  | .nil => fun _ => rfl
  | .cons k v t => by
      intro h
      simp only [untouchedObj, Bool.and_eq_true, Bool.not_eq_true'] at h
      simp [redactObj, h.1.1, redact_untouched v h.1.2, redactObj_untouched t h.2]

end

/-- Containment is preserved when a character is prepended to the text. -/
theorem subStrL_cons (sub : List Char) (c : Char) (t : List Char)
    (h : subStrL sub t = true) : subStrL sub (c :: t) = true := by
  simp [subStrL, h]

/-- A prefix match is in particular a substring occurrence. -/
theorem subStrL_of_hasPrefixB (sub t : List Char)
    (h : hasPrefixB sub t = true) : subStrL sub t = true := by
  cases t with
  | nil => simpa [subStrL] using h
  | cons c ts => simp [subStrL, h]

/-- The character list of `api_key`. -/
def apiKeyChars : List Char := ['a', 'p', 'i', '_', 'k', 'e', 'y']

/-- The character list of `key`. -/
def keyChars : List Char := ['k', 'e', 'y']

/-- A prefix match of `api_key` yields an occurrence of `key` four positions
further in. -/
theorem keyOcc_of_apiPrefix (c : Char) (ts : List Char)
    (h : hasPrefixB apiKeyChars (c :: ts) = true) :
    subStrL keyChars (c :: ts) = true := by
  match ts with
  | [] => simp [apiKeyChars, hasPrefixB] at h
  | [t1] => simp [apiKeyChars, hasPrefixB] at h
  | [t1, t2] => simp [apiKeyChars, hasPrefixB] at h
  | t1 :: t2 :: t3 :: t4 =>
      simp only [apiKeyChars, hasPrefixB, Bool.and_eq_true] at h
      have h4 : hasPrefixB keyChars t4 = true := by
        simpa [keyChars] using h.2.2.2.2
      exact subStrL_cons _ c _ (subStrL_cons _ t1 _ (subStrL_cons _ t2 _
        (subStrL_cons _ t3 _ (subStrL_of_hasPrefixB _ _ h4))))

/-- A text containing `api_key` contains `key`. -/
theorem subStr_apiKey_key :
    ∀ t : List Char, subStrL apiKeyChars t = true → subStrL keyChars t = true := by
  intro t
  induction t with
  | nil => intro h; simp [subStrL, apiKeyChars, hasPrefixB] at h
  | cons c ts ih =>
      intro h
      simp only [subStrL, Bool.or_eq_true] at h
      rcases h with h | h
      · exact keyOcc_of_apiPrefix c ts h
      · exact subStrL_cons _ _ _ (ih h)

/--
C1: redaction fully characterised.  (a) The output of `_redact` is always
clean: at every nesting depth each dict entry whose lowercased key contains
one of key/secret/token/password/api carries the fixed marker, and no string
leaf of the output matches the secret-token pattern.  (b) Any string matching
the secret-token pattern (the prefix `sk-` followed by at least eight
alphanumeric/underscore/hyphen characters) is replaced by the marker.
(c) Any value containing no secret-hit key and no secret-shaped string leaf is
returned unchanged.  (d) In particular a key whose lowercased name contains
`api_key` is always a secret hit, so its value is redacted at any depth.
-/
theorem c1_redact_characterisation :
    (∀ v : JValue, cleanJ (redact v) = true) ∧
    (∀ s : String, skSearch s = true → redact (.str s) = .str redactMarker) ∧
    (∀ v : JValue, untouchedJ v = true → redact v = v) ∧
    (∀ k : String, subStr "api_key" (pyLower k) = true → secretKeyHit k = true) := by
  refine ⟨cleanJ_redact, ?_, redact_untouched, ?_⟩
  · intro s h
    simp [redact, redactValue, h]
  · intro k h
    have hd : "api_key".data = apiKeyChars := by decide
    have hk : subStrL keyChars (pyLower k).data = true := by
      apply subStr_apiKey_key
      simpa [subStr, hd] using h
    simp only [secretKeyHit, secretSubs, List.any_cons, Bool.or_eq_true]
    left
    have hd2 : "key".data = keyChars := by decide
    simpa [subStr, hd2] using hk

/-- Witness for C1: the hypothesised parts applied at concrete inputs. -/
theorem c1_redact_characterisation_witness :
    (skSearch "sk-abcdefgh" = true ∧
      redact (.str "sk-abcdefgh") = .str redactMarker) ∧
    (untouchedJ (.obj (.cons "name" (.str "alice") .nil)) = true ∧
      redact (.obj (.cons "name" (.str "alice") .nil)) =
        .obj (.cons "name" (.str "alice") .nil)) ∧
    (subStr "api_key" (pyLower "My_Api_Key") = true ∧
      secretKeyHit "My_Api_Key" = true) :=
  ⟨⟨by decide, c1_redact_characterisation.2.1 "sk-abcdefgh" (by decide)⟩,
   ⟨by decide, c1_redact_characterisation.2.2.1 _ (by decide)⟩,
   ⟨by decide, c1_redact_characterisation.2.2.2 "My_Api_Key" (by decide)⟩⟩

/-! ## Router (`src/duckagent/router.py`) -/

/-- Alternatives of the analysis pattern, in source order.  Note that the
source combines truncated stems such as `analy`, `regress` and `correlat`
with a closing word boundary, so each alternative only matches as an exact
standalone word. -/
def analyzeWords : List String :=
  ["analy", "analysis", "analyze", "regress", "correlat", "drivers", "model", "predict"]

/-- Alternatives of the summarization pattern, in source order. -/
def summarizeWords : List String :=
  ["summary", "summarize", "summarise", "describe", "overview", "insight"]

/-- Alternatives of the SQL-aggregation pattern, in source order. -/
def sqlWords : List String :=
  ["count", "how many", "top", "sum", "avg", "group by", "order by", "select", "min", "max"]

/-- Result record of `Router.detect_intent`. -/
structure RDecision where
  intent : String
  confidence : ℚ
  agents : List String
  hints : List (String × Bool)
  deriving DecidableEq, Repr

/-- Embedding of `Router.detect_intent`.  The unused `context` parameter of
the source is omitted; the patterns are applied to the lowercased prompt. -/
def detect_intent (prompt : String) (user_mode : Option String) : RDecision :=
  let text := pyLower prompt
  match user_mode with
  | some m => ⟨m, 95 / 100, [], []⟩
  | none =>
      if reSearch analyzeWords text then
        ⟨"analyze", 92 / 100,
          ["Planner", "SQLGenerator", "Validator", "SQLRunner", "AnalysisAgent", "Summarizer"],
          [("sample_only", true)]⟩
      else if reSearch summarizeWords text then
        ⟨"summarize", 93 / 100, ["Planner", "Summarizer"], [("use_existing_df", true)]⟩
      else if reSearch sqlWords text then
        ⟨"sql", 9 / 10,
          ["Planner", "SQLGenerator", "Validator", "SQLRunner", "Summarizer"],
          [("sample_only", true)]⟩
      else ⟨"unknown", 1 / 2, [], []⟩

/-- The summarization keywords named by the specification (the source also
accepts the spelling `summarise`). -/
def specSummarizeWords : List String :=
  ["summary", "summarize", "describe", "overview", "insight"]

/-- The analysis keywords named by the specification. -/
def specAnalysisWords : List String :=
  ["analyze", "analysis", "regression", "correlate", "drivers", "model", "predict"]

/-- Enlarging the word list preserves a boundary-delimited search hit. -/
theorem patSearchL_mono (ws1 ws2 : List String) (hsub : ∀ w ∈ ws1, w ∈ ws2) :
    ∀ prev t, patSearchL ws1 prev t = true → patSearchL ws2 prev t = true := by
  intro prev t
  induction t generalizing prev with
  | nil =>
      intro h
      simp only [patSearchL, List.any_eq_true] at h ⊢
      obtain ⟨w, hw, hh⟩ := h
      exact ⟨w, hsub w hw, hh⟩
  | cons c ts ih =>
      intro h
      simp only [patSearchL, Bool.or_eq_true, List.any_eq_true] at h ⊢
      rcases h with ⟨w, hw, hh⟩ | h
      · exact Or.inl ⟨w, hsub w hw, hh⟩
      · exact Or.inr (ih (some c) h)

/-- String-level version of `patSearchL_mono`. -/
theorem reSearch_mono (ws1 ws2 : List String) (hsub : ∀ w ∈ ws1, w ∈ ws2)
    (s : String) (h : reSearch ws1 s = true) : reSearch ws2 s = true :=
  patSearchL_mono ws1 ws2 hsub none s.data h

/--
C3 (amended): for every prompt without `user_mode` in which one of the
summarization keywords summary/summarize/describe/overview/insight occurs as
a whole word and none of the analysis-pattern alternatives (analy, analysis,
analyze, regress, correlat, drivers, model, predict) occurs as a whole word,
`detect_intent` returns intent `summarize` with confidence 0.93 and the agent
chain Planner, Summarizer — never `sql` — even when the prompt contains `sum`
as a substring of a longer word.
-/
theorem c3_summarize_beats_sql (p : String)
    (h1 : reSearch specSummarizeWords (pyLower p) = true)
    (h2 : reSearch analyzeWords (pyLower p) = false) :
    detect_intent p none =
      ⟨"summarize", 93 / 100, ["Planner", "Summarizer"], [("use_existing_df", true)]⟩ := by
  have hsub : ∀ w ∈ specSummarizeWords, w ∈ summarizeWords := by decide
  have h1' : reSearch summarizeWords (pyLower p) = true :=
    reSearch_mono _ _ hsub _ h1
  simp [detect_intent, h2, h1']

/--
C3 counterexample: the prompt `give a regress summary` contains the
summarization keyword `summary` as a whole word and none of the analysis
keywords listed by the specification (analyze, analysis, regression,
correlate, drivers, model, predict) as a whole word, yet `detect_intent`
classifies it as `analyze`, not `summarize`, because the truncated stem
`regress` of the source pattern matches the standalone word `regress`.
-/
theorem c3_counterexample :
    reSearch specSummarizeWords (pyLower "give a regress summary") = true ∧
    reSearch specAnalysisWords (pyLower "give a regress summary") = false ∧
    (detect_intent "give a regress summary" none).intent = "analyze" ∧
    (detect_intent "give a regress summary" none).intent ≠ "summarize" := by
  refine ⟨by decide, by decide, by decide, by decide⟩

/-- Witness for C3: the amended theorem applied to a concrete prompt whose
word `summary` contains `sum` as a substring. -/
theorem c3_summarize_beats_sql_witness :
    reSearch specSummarizeWords (pyLower "Provide a summary of sales") = true ∧
    subStr "sum" (pyLower "Provide a summary of sales") = true ∧
    detect_intent "Provide a summary of sales" none =
      ⟨"summarize", 93 / 100, ["Planner", "Summarizer"], [("use_existing_df", true)]⟩ :=
  ⟨by decide, by decide, c3_summarize_beats_sql _ (by decide) (by decide)⟩

/--
C8: the claim fails on the code.  The prompts below contain `regression` and
`correlate` as whole words — analysis vocabulary per the specification — yet
`detect_intent` returns intent `unknown` with an empty agent chain, because
the source pattern ends each truncated stem (`regress`, `correlat`) with a
word boundary that can never sit inside the intended longer words.  The
theorem evaluates the embedded router at the failing inputs.
-/
theorem c8_regression_correlate_missed :
    reSearch specAnalysisWords (pyLower "run a regression on sales") = true ∧
    (detect_intent "run a regression on sales" none).intent = "unknown" ∧
    (detect_intent "run a regression on sales" none).agents = [] ∧
    reSearch specAnalysisWords (pyLower "correlate price with demand") = true ∧
    (detect_intent "correlate price with demand" none).intent = "unknown" ∧
    (detect_intent "correlate price with demand" none).agents = [] := by
  refine ⟨by decide, by decide, by decide, by decide, by decide, by decide⟩

/-! ## Decision-to-payload mapping (`src/duckagent/adapters/langgraph_mapping.py`) -/

/-- A declared `outputs`/`provides` field: the source accepts a bare string or
a list of strings. -/
inductive OutDecl where
  | one (v : String)
  | many (v : List String)
  deriving DecidableEq

/-- Python truthiness of an `outputs` declaration. -/
def OutDecl.truthy : OutDecl → Bool
  | .one v => v ≠ ""
  | .many v => !v.isEmpty

/-- The declaration as a list, after the string-to-singleton normalisation. -/
def OutDecl.asList : OutDecl → List String
  | .one v => [v]
  | .many v => v

/-- One agent entry of a decision as consumed by `build_run_payload`; every
field is optional exactly like a dict key. -/
structure MStep where
  id : Option String := none
  name : Option String := none
  params : Option JValue := none
  outputs : Option OutDecl := none
  provides : Option OutDecl := none
  depends_on : Option (List String) := none
  deriving DecidableEq

/-- A decision as consumed by `build_run_payload`. -/
structure MDecision where
  agents : List MStep

/-- One item of the produced run payload; an input reference
`(from, output)` models the dict with keys `from` and `output`. -/
structure PayloadItem where
  id : String
  name : String
  params : JValue
  outputs : List String
  depends_on : List String
  inputs : List (String × String)
  deriving DecidableEq

/-- Effective id: the declared id when truthy, else `node_i`
(`a.get("id") or f"node_\x7bidx\x7d"`). -/
def effId (i : Nat) (a : MStep) : String :=
  match a.id with
  | some s => if s == "" then "node_" ++ toString i else s
  | none => "node_" ++ toString i

/-- Effective `provides` fallback of the outputs chain. -/
def effProvides (a : MStep) : List String :=
  match a.provides with
  | some o => if o.truthy then o.asList else ["result"]
  | none => ["result"]

/-- Effective outputs:
`a.get("outputs") or a.get("provides") or ["result"]`, with a bare string
wrapped into a singleton list. -/
def effOutputs (a : MStep) : List String :=
  match a.outputs with
  | some o => if o.truthy then o.asList else effProvides a
  | none => effProvides a

/-- Effective dependency list: the declared list, or empty when the key is
absent or null. -/
def effDeps (a : MStep) : List String :=
  a.depends_on.getD []

/-- Effective name: `a.get("name", f"agent_\x7bidx\x7d")`. -/
def effName (i : Nat) (a : MStep) : String :=
  a.name.getD ("agent_" ++ toString i)

/-- The payload item built for agent `a` at index `i` before dependency
wiring. -/
def mkItem (i : Nat) (a : MStep) : PayloadItem :=
  ⟨effId i a, effName i a, a.params.getD (.obj .nil), effOutputs a, effDeps a, []⟩

/-- First loop of `build_run_payload`: normalised items, indexed from `i`. -/
def buildItems (i : Nat) : List MStep → List PayloadItem
  | [] => []
  | a :: t => mkItem i a :: buildItems (i + 1) t

/-- The `id_to_outputs` association, in insertion order with possible
duplicate ids (a later assignment overwrites, hence the last-match lookup
below). -/
def idOutPairs (i : Nat) : List MStep → List (String × List String)
  | [] => []
  | a :: t => (effId i a, effOutputs a) :: idOutPairs (i + 1) t

/-- Python dict semantics on the association list: the last stored value for
a key wins. -/
def lookupLastOut (m : List (String × List String)) (k : String) : Option (List String) :=
  (m.reverse.find? (fun p => p.1 == k)).map (fun p => p.2)

/-- Linear rewiring: every item after the first has its dependency list
replaced by the previous item id. -/
def chainL (prev : Option String) : List PayloadItem → List PayloadItem
  | [] => []
  | it :: t =>
      (match prev with
       | none => it
       | some pid => { it with depends_on := [pid] }) :: chainL (some it.id) t

/-- The primary connector for a dependency:
`id_to_outputs.get(dep, ["result"])[0]`. -/
def firstOutputOf (agents : List MStep) (dep : String) : String :=
  ((lookupLastOut (idOutPairs 0 agents) dep).getD ["result"]).headD "result"

/-- Fill one item input list with one reference per dependency. -/
def addInputs (agents : List MStep) (it : PayloadItem) : PayloadItem :=
  { it with inputs := it.depends_on.map (fun dep => (dep, firstOutputOf agents dep)) }

/-- Second loop of `build_run_payload`: fill each item input list with one
reference per dependency. -/
def withInputs (agents : List MStep) (items : List PayloadItem) : List PayloadItem :=
  items.map (addInputs agents)

/-- Embedding of `build_run_payload`. -/
def build_run_payload (d : MDecision) : String × List PayloadItem :=
  let items0 := buildItems 0 d.agents
  let items1 :=
    if items0.any (fun it => !it.depends_on.isEmpty) then items0
    else chainL none items0
  ("duckagent_decision", withInputs d.agents items1)

/-- Item lookup in the normalised item list. -/
theorem buildItems_get (l : List MStep) :
    ∀ i j, (buildItems i l)[j]? = l[j]?.map (fun a => mkItem (i + j) a) := by
  induction l with
  | nil => intro i j; simp [buildItems]
  | cons a t ih =>
      intro i j
      cases j with
      | zero => simp [buildItems]
      | succ j =>
          simp only [buildItems, List.getElem?_cons_succ]
          rw [ih (i + 1) j]
          have h : i + 1 + j = i + (j + 1) := by omega
          rw [h]

/-- The normalised item list has one item per agent. -/
theorem buildItems_length (l : List MStep) : ∀ i, (buildItems i l).length = l.length := by
  induction l with
  | nil => intro i; rfl
  | cons a t ih => intro i; simp [buildItems, ih]

/-- The dependency-presence test over items equals the same test over
agents. -/
theorem buildItems_any_deps (l : List MStep) :
    ∀ i, (buildItems i l).any (fun it => !it.depends_on.isEmpty) =
      l.any (fun a => !(effDeps a).isEmpty) := by
  induction l with
  | nil => intro i; rfl
  | cons a t ih => intro i; simp [buildItems, mkItem, ih]

/-- Linear rewiring keeps the item count. -/
theorem chainL_length (l : List PayloadItem) :
    ∀ prev, (chainL prev l).length = l.length := by
  induction l with
  | nil => intro prev; rfl
  | cons a t ih =>
      intro prev
      cases prev <;> simp [chainL, ih]

/-- Linear rewiring does not change item ids. -/
theorem chainL_id (l : List PayloadItem) :
    ∀ (prev : Option String) (j : Nat),
      ((chainL prev l)[j]?).map PayloadItem.id = (l[j]?).map PayloadItem.id := by
  induction l with
  | nil => intro prev j; simp [chainL]
  | cons a t ih =>
      intro prev j
      cases j with
      | zero => cases prev <;> simp [chainL]
      | succ j =>
          cases prev <;>
            simpa only [chainL, List.getElem?_cons_succ] using ih _ j

/-- The first item is untouched by linear rewiring started with no
predecessor. -/
theorem chainL_get_zero (l : List PayloadItem) :
    (chainL none l)[0]? = l[0]? := by
  cases l <;> simp [chainL]

/-- Each later item of the rewired list depends exactly on the previous item
id. -/
theorem chainL_get_succ :
    ∀ (l : List PayloadItem) (prev : Option String) (j : Nat) (itp itc : PayloadItem),
      l[j]? = some itp → l[j + 1]? = some itc →
      (chainL prev l)[j + 1]? = some { itc with depends_on := [itp.id] } := by
  intro l
  induction l with
  | nil => intro prev j itp itc h1 _; simp at h1
  | cons a t ih =>
      intro prev j itp itc h1 h2
      cases j with
      | zero =>
          simp only [List.getElem?_cons_zero, Option.some_inj] at h1
          cases t with
          | nil => simp at h2
          | cons b t2 =>
              simp only [List.getElem?_cons_succ, List.getElem?_cons_zero,
                Option.some_inj] at h2
              subst h1; subst h2
              cases prev <;> simp [chainL]
      | succ j =>
          simp only [List.getElem?_cons_succ] at h1 h2
          have hh := ih (some a.id) j itp itc h1 h2
          cases prev <;> simpa only [chainL, List.getElem?_cons_succ] using hh

/-- The item list of the payload built for an agent list. -/
def payloadItems (agents : List MStep) : List PayloadItem :=
  (build_run_payload ⟨agents⟩).2

/-- Item lookup after input filling. -/
theorem withInputs_get (ag : List MStep) (l : List PayloadItem) (i : Nat) :
    (withInputs ag l)[i]? = (l[i]?).map (addInputs ag) := by
  simp [withInputs]

/-- Input filling does not change item ids. -/
theorem withInputs_id (ag : List MStep) (l : List PayloadItem) (i : Nat) :
    ((withInputs ag l)[i]?).map PayloadItem.id = (l[i]?).map PayloadItem.id := by
  rw [withInputs_get]
  cases l[i]? <;> rfl

/-- Input filling does not change dependency lists. -/
theorem withInputs_deps (ag : List MStep) (l : List PayloadItem) (i : Nat) :
    ((withInputs ag l)[i]?).map PayloadItem.depends_on = (l[i]?).map PayloadItem.depends_on := by
  rw [withInputs_get]
  cases l[i]? <;> rfl

/-- A successful index lookup yields a member of the list. -/
theorem memOfGetElem {α : Type} {l : List α} {i : Nat} {a : α}
    (h : l[i]? = some a) : a ∈ l := by
  obtain ⟨hlt, rfl⟩ := List.getElem?_eq_some.mp h
  exact List.getElem_mem _

/--
C7 (amended): for every decision, `build_run_payload` produces one item per
step; each item carries its declared id when that id is a non-empty string
and the default `node_i` otherwise; when no step declares a non-empty
`depends_on`, the items are chained linearly (item 0 has no dependencies and
item i+1 depends exactly on item i); when some step declares a non-empty
`depends_on`, every declared dependency list is preserved verbatim (absent
ones stay empty); and each item's inputs hold, for each dependency, the
reference `(dependencyId, o)` where `o` is the first declared output of the
referenced step, defaulting to `result` when that step declares none.
-/
theorem c7_payload_mapping (agents : List MStep) :
    (payloadItems agents).length = agents.length ∧
    (∀ (i : Nat) (a : MStep), agents[i]? = some a →
      ((payloadItems agents)[i]?).map PayloadItem.id = some (effId i a)) ∧
    ((∀ a ∈ agents, effDeps a = []) →
      (((payloadItems agents)[0]?).map PayloadItem.depends_on
          = (agents[0]?).map (fun _ => []) ∧
        ∀ (i : Nat) (a b : MStep), agents[i]? = some a → agents[i + 1]? = some b →
          ((payloadItems agents)[i + 1]?).map PayloadItem.depends_on = some [effId i a])) ∧
    ((∃ a ∈ agents, effDeps a ≠ []) →
      ∀ (i : Nat) (a : MStep), agents[i]? = some a →
        ((payloadItems agents)[i]?).map PayloadItem.depends_on = some (effDeps a)) ∧
    (∀ (i : Nat) (it : PayloadItem), (payloadItems agents)[i]? = some it →
      it.inputs = it.depends_on.map (fun dep => (dep, firstOutputOf agents dep))) := by
  have hpe : payloadItems agents =
      withInputs agents
        (if (buildItems 0 agents).any (fun it => !it.depends_on.isEmpty)
         then buildItems 0 agents else chainL none (buildItems 0 agents)) := rfl
  by_cases hany : (buildItems 0 agents).any (fun it => !it.depends_on.isEmpty) = true
  · -- some declared dependency list is non-empty: no rewiring happens
    have hpe2 : payloadItems agents = withInputs agents (buildItems 0 agents) := by
      rw [hpe, if_pos hany]
    refine ⟨?_, ?_, ?_, ?_, ?_⟩
    · rw [hpe2]; simp [withInputs, buildItems_length]
    · intro i a ha
      rw [hpe2, withInputs_id, buildItems_get, ha]
      simp [mkItem]
    · intro hall
      exfalso
      rw [buildItems_any_deps, List.any_eq_true] at hany
      obtain ⟨a, ha, hne⟩ := hany
      rw [hall a ha] at hne
      simp at hne
    · intro _ i a ha
      rw [hpe2, withInputs_deps, buildItems_get, ha]
      simp [mkItem]
    · intro i it hit
      rw [hpe2, withInputs_get] at hit
      rcases Option.map_eq_some'.mp hit with ⟨it0, _, heq⟩
      subst heq
      rfl
  · -- every declared dependency list is empty: linear rewiring
    have hany' : (buildItems 0 agents).any (fun it => !it.depends_on.isEmpty) = false :=
      Bool.not_eq_true _ ▸ eq_false_of_ne_true hany
    have hpe2 : payloadItems agents = withInputs agents (chainL none (buildItems 0 agents)) := by
      rw [hpe, if_neg hany]
    have hdeps : ∀ a ∈ agents, effDeps a = [] := by
      rw [buildItems_any_deps] at hany'
      intro a ha
      by_contra hne
      have : agents.any (fun a => !(effDeps a).isEmpty) = true :=
        List.any_eq_true.mpr ⟨a, ha, by simpa [List.isEmpty_iff] using hne⟩
      rw [this] at hany'
      exact Bool.true_eq_false.mp hany'
    refine ⟨?_, ?_, ?_, ?_, ?_⟩
    · rw [hpe2]; simp [withInputs, chainL_length, buildItems_length]
    · intro i a ha
      rw [hpe2, withInputs_id, chainL_id, buildItems_get, ha]
      simp [mkItem]
    · intro _
      constructor
      · rw [hpe2, withInputs_deps, chainL_get_zero, buildItems_get]
        cases h0 : agents[0]? with
        | none => rfl
        | some a =>
            have := hdeps a (memOfGetElem h0)
            simp [mkItem, this]
      · intro i a b ha hb
        have hga : (buildItems 0 agents)[i]? = some (mkItem i a) := by
          rw [buildItems_get, ha]; simp
        have hgb : (buildItems 0 agents)[i + 1]? = some (mkItem (i + 1) b) := by
          rw [buildItems_get, hb]; simp
        rw [hpe2, withInputs_deps, chainL_get_succ _ none i _ _ hga hgb]
        rfl
    · intro hex
      exfalso
      obtain ⟨a, ha, hne⟩ := hex
      exact hne (hdeps a ha)
    · intro i it hit
      rw [hpe2, withInputs_get] at hit
      rcases Option.map_eq_some'.mp hit with ⟨it0, _, heq⟩
      subst heq
      rfl

/-- Counterexample decision for C7: the second step declares an explicit
empty `depends_on`. -/
def c7CexAgents : List MStep :=
  [{ name := some "A" }, { name := some "B", depends_on := some [] }]

/--
C7 counterexample: the claim as stated is false.  In the decision
`[\x7bname: A\x7d, \x7bname: B, depends_on: []\x7d]` the second step declares
an explicit `depends_on` equal to the empty list, but the produced payload
item depends on `node_0`: an explicitly declared dependency list is not
preserved verbatim when every declared list is empty, because the linear
rewiring triggers whenever no non-empty dependency list exists.
-/
theorem c7_counterexample :
    (c7CexAgents[1]?).bind MStep.depends_on = some [] ∧
    ((payloadItems c7CexAgents)[1]?).map PayloadItem.depends_on = some ["node_0"] ∧
    some [] ≠ some ["node_0"] := by
  refine ⟨by decide, by decide, by decide⟩

/-- First step of the explicit-dependency example. -/
def stepGen : MStep := { id := some "g1", name := some "Gen", outputs := some (.many ["sql_text"]) }

/-- Second step of the explicit-dependency example. -/
def stepRun : MStep := { id := some "r1", name := some "Run", depends_on := some ["g1"] }

/-- Explicit-dependency example decision. -/
def c7ExAgents : List MStep := [stepGen, stepRun]

/-- A bare named step. -/
def stepA : MStep := { name := some "A" }

/-- A bare named step. -/
def stepB : MStep := { name := some "B" }

/-- A bare named step. -/
def stepC : MStep := { name := some "C" }

/-- Linear example decision with no declared dependencies. -/
def c7LinAgents : List MStep := [stepA, stepB, stepC]

/-- The payload item produced for `stepRun`, inputs filled. -/
def itRunFilled : PayloadItem :=
  ⟨"r1", "Run", .obj .nil, ["result"], ["g1"], [("g1", "sql_text")]⟩

/-- Witness for C7: the amended theorem applied to one decision with an
explicit non-empty dependency and one with none. -/
theorem c7_payload_mapping_witness :
    ((payloadItems c7ExAgents)[1]?).map PayloadItem.id = some "r1" ∧
    ((payloadItems c7ExAgents)[1]?).map PayloadItem.depends_on = some ["g1"] ∧
    ((payloadItems c7LinAgents)[1]?).map PayloadItem.depends_on = some ["node_0"] ∧
    itRunFilled.inputs = itRunFilled.depends_on.map
      (fun dep => (dep, firstOutputOf c7ExAgents dep)) := by
  have h := c7_payload_mapping c7ExAgents
  have hlin := c7_payload_mapping c7LinAgents
  refine ⟨?_, ?_, ?_, ?_⟩
  · have h2 := h.2.1 1 stepRun rfl
    have he : effId 1 stepRun = "r1" := by decide
    rw [he] at h2
    exact h2
  · have hex : ∃ a ∈ c7ExAgents, effDeps a ≠ [] :=
      ⟨stepRun, by decide, by decide⟩
    have h2 := h.2.2.2.1 hex 1 stepRun rfl
    have he : effDeps stepRun = ["g1"] := by decide
    rw [he] at h2
    exact h2
  · have hall : ∀ a ∈ c7LinAgents, effDeps a = [] := by decide
    have h2 := (hlin.2.2.1 hall).2 0 stepA stepB rfl rfl
    have he : effId 0 stepA = "node_0" := by decide
    rw [he] at h2
    exact h2
  · exact h.2.2.2.2 1 itRunFilled (by decide)

/--
C10: linear chaining is all-or-nothing.  If some step of the decision
declares a non-empty `depends_on`, then every step that declares no
`depends_on` keeps an empty dependency list and an empty input list in the
produced payload: the default linear chain is never applied in that case.
-/
theorem c10_chain_all_or_nothing (agents : List MStep)
    (hex : ∃ a ∈ agents, effDeps a ≠ []) :
    ∀ (i : Nat) (a : MStep), agents[i]? = some a → a.depends_on = none →
      ((payloadItems agents)[i]?).map PayloadItem.depends_on = some [] ∧
      ((payloadItems agents)[i]?).map PayloadItem.inputs = some [] := by
  intro i a ha hnone
  have hany : (buildItems 0 agents).any (fun it => !it.depends_on.isEmpty) = true := by
    rw [buildItems_any_deps]
    obtain ⟨b, hb, hne⟩ := hex
    exact List.any_eq_true.mpr ⟨b, hb, by simpa [List.isEmpty_iff] using hne⟩
  have hpe : payloadItems agents =
      withInputs agents
        (if (buildItems 0 agents).any (fun it => !it.depends_on.isEmpty)
         then buildItems 0 agents else chainL none (buildItems 0 agents)) := rfl
  have hpe2 : payloadItems agents = withInputs agents (buildItems 0 agents) := by
    rw [hpe, if_pos hany]
  constructor
  · rw [hpe2, withInputs_deps, buildItems_get, ha]
    simp [mkItem, effDeps, hnone]
  · rw [hpe2, withInputs_get, buildItems_get, ha]
    simp [mkItem, addInputs, effDeps, hnone]

/-- A step declaring a non-empty dependency on an unknown id. -/
def stepBdep : MStep := { name := some "B", depends_on := some ["x"] }

/-- Decision mixing one declared dependency with undeclared ones. -/
def c10Agents : List MStep := [stepA, stepBdep, stepC]

/-- Witness for C10: with one non-empty declared dependency present, a step
with no declared dependency keeps empty dependencies and inputs. -/
theorem c10_chain_all_or_nothing_witness :
    ((payloadItems c10Agents)[2]?).map PayloadItem.depends_on = some [] ∧
    ((payloadItems c10Agents)[2]?).map PayloadItem.inputs = some [] := by
  have hex : ∃ a ∈ c10Agents, effDeps a ≠ [] := ⟨stepBdep, by decide, by decide⟩
  exact c10_chain_all_or_nothing c10Agents hex 2 stepC rfl rfl

/-! ## External collaborators and run context -/

/-- A pandas dataframe: column names and rows of cells. -/
structure DFrame where
  cols : List String
  rows : List (List JValue)
  deriving DecidableEq

/-- A database cursor after a successful `execute`: `fetchdf` either yields a
dataframe or raises, `fetchall` either yields raw rows or raises with a
message. -/
structure Cur where
  fdf : Option DFrame
  fall : Except String (List (List JValue))

/-- A data-source handle: executing an SQL string either yields a cursor or
raises with a message. -/
structure Conn where
  run : String → Except String Cur

/-- An LLM client: a prompt and a `max_tokens` budget yield a completion, or
`none` when the call raises. -/
def LLM : Type := String → Nat → Option String

/-- The caller-supplied run context (the keys the core reads). -/
structure Ctx where
  conn : Option Conn := none
  prompt : Option String := none
  llm : Option LLM := none
  full_df : Option DFrame := none
  rows_preview : Option (List JValue) := none

/-! ## Planner (`src/duckagent/planner.py`) -/

/-- The fixed agent-name allowlist, in source order. -/
def DEFAULT_AGENT_NAMES : List String :=
  ["Planner", "SQLGenerator", "Validator", "SQLRunner", "AnalysisAgent", "Summarizer"]

/-- One validated plan step. -/
structure PStep where
  name : String
  params : JValue
  deriving DecidableEq

/-- A planner decision.  `reason` and `cost_estimate` keys are only present on
deterministic plans, never on LLM-validated ones. -/
structure PlanDecision where
  intent : JValue
  agents : List PStep
  hints : JValue
  reason : Option String
  cost_estimate : Option JValue
  deriving DecidableEq

/-- Does the context already carry usable data
(`full_df is not None or (rows_preview and len(rows_preview) > 0)`)? -/
def ctxHasData (ctx : Ctx) : Bool :=
  ctx.full_df.isSome ||
    (match ctx.rows_preview with
     | some l => !l.isEmpty
     | none => false)

/-- Embedding of `Planner._default_plan`. -/
def _default_plan (intent : String) (ctx : Ctx) : PlanDecision :=
  if ctxHasData ctx then
    { intent := .str intent,
      agents := [⟨"Summarizer", .obj .nil⟩],
      hints := .obj (.cons "use_existing_df" (.bool true) .nil),
      reason := some "context contains data; prefer summarizer",
      cost_estimate := some (.obj (.cons "llm_tokens" (.int 20)
        (.cons "scan_bytes_est" (.int 0) .nil))) }
  else
    let body : List PStep × JValue :=
      if intent = "analyze" then
        ([⟨"Planner", .obj .nil⟩,
          ⟨"SQLGenerator", .obj (.cons "sample_only" (.bool true) .nil)⟩,
          ⟨"Validator", .obj (.cons "sample_mode" (.bool true) .nil)⟩,
          ⟨"SQLRunner", .obj (.cons "max_rows" (.int 1000) .nil)⟩,
          ⟨"AnalysisAgent", .obj (.cons "analysis_mode" (.str "regression") .nil)⟩,
          ⟨"Summarizer", .obj (.cons "model" (.str "default") .nil)⟩],
         .obj (.cons "confirm_full_run" (.bool true) .nil))
      else if intent = "sql" then
        ([⟨"Planner", .obj .nil⟩,
          ⟨"SQLGenerator", .obj (.cons "sample_only" (.bool true) .nil)⟩,
          ⟨"Validator", .obj .nil⟩,
          ⟨"SQLRunner", .obj (.cons "max_rows" (.int 500) .nil)⟩,
          ⟨"Summarizer", .obj .nil⟩],
         .obj .nil)
      else if intent = "summarize" then
        ([⟨"Planner", .obj .nil⟩, ⟨"Summarizer", .obj .nil⟩], .obj .nil)
      else
        ([⟨"Planner", .obj .nil⟩, ⟨"Summarizer", .obj .nil⟩], .obj .nil)
    { intent := .str intent,
      agents := body.1,
      hints := body.2,
      reason := some "planner default mapping",
      cost_estimate := some (.obj (.cons "llm_tokens" (.int 100)
        (.cons "scan_bytes_est" (.int 0) .nil))) }

/-- A decision normalised by `_validate_decision`. -/
structure NormDecision where
  intent : JValue
  agents : List PStep
  hints : JValue
  deriving DecidableEq

/-- Validation of the agent list: each agent must be a dict whose `name` is
in the allowlist and whose truthy `params` is a dict.  The per-value
`safe_params` filter of the source admits every JSON type, so on JSON input
it is the identity and is not repeated here. -/
def validateAgentList : JList → Option (List PStep)
  | .nil => some []
  | .cons a t =>
      match a with
      | .obj ao =>
          match ao.get "name" with
          | some (.str n) =>
              if DEFAULT_AGENT_NAMES.contains n then
                let params0 := (ao.get "params").getD (.obj .nil)
                let params1 := if truthyJ params0 then params0 else .obj .nil
                match params1 with
                | .obj po =>
                    match validateAgentList t with
                    | some rest => some (⟨n, .obj po⟩ :: rest)
                    | none => none
                | _ => none
              else none
          | _ => none
      | _ => none

/-- Embedding of `Planner._validate_decision`; `none` models the raised
`ValueError`. -/
def _validate_decision (v : JValue) : Option NormDecision :=
  match v with
  | .obj o =>
      match o.get "agents" with
      | some (.arr ags) =>
          match validateAgentList ags with
          | some steps =>
              some ⟨(o.get "intent").getD .null, steps, (o.get "hints").getD (.obj .nil)⟩
          | none => none
      | _ => none
  | _ => none

/-- The first character of a JSON object. -/
def lbrace : Char := Char.ofNat 123

/-- Drop characters up to the first opening brace, keeping it. -/
def dropToBraceL : List Char → List Char
  | [] => []
  | c :: cs => if c == lbrace then c :: cs else dropToBraceL cs

/-- Embedding of the `text.find` / slice step: keep the text from the first
opening brace on, or unchanged when none occurs. -/
def findBrace (t : String) : String :=
  if t.data.any (fun c => c == lbrace) then ⟨dropToBraceL t.data⟩ else t

/-- Split a character list at newline characters (Python `split("\n")`). -/
def splitNl : List Char → List (List Char)
  | [] => [[]]
  | c :: ts =>
      if c == '\n' then [] :: splitNl ts
      else
        match splitNl ts with
        | [] => [[c]]
        | h :: r => (c :: h) :: r

/-- Join character lists with newlines (Python `"\n".join`). -/
def joinNl : List (List Char) → List Char
  | [] => []
  | [h] => h
  | h :: r => h ++ '\n' :: joinNl r

/-- Embedding of the code-fence stripping step: when the trimmed completion
both starts and ends with three backticks, drop its first and last lines. -/
def stripFence (t : String) : String :=
  if hasPrefixB "```".data t.data && hasPrefixB "```".data.reverse t.data.reverse then
    ⟨joinNl (((splitNl t.data).drop 1).dropLast)⟩
  else t

/-- The preprocessing the planner applies to the raw completion before
`json.loads`: strip whitespace, strip a code fence, seek the first brace. -/
def extractJson (raw : String) : String :=
  findBrace (stripFence (pyStrip raw))

/-- The constrained prompt the planner sends to the LLM. -/
def plannerPrompt (prompt : String) : String :=
  "You are a planner that returns a JSON object describing an execution plan. " ++
  "Respond ONLY with valid JSON. The JSON must contain an \x27intent\x27 string and an \x27agents\x27 list. " ++
  "Each agent in \x27agents\x27 must be an object with \x27name\x27 (one of: " ++
  String.intercalate ", " DEFAULT_AGENT_NAMES ++
  ") and optional \x27params\x27 (a simple JSON object).\n" ++
  "User prompt: " ++ prompt ++ "\n" ++
  "Produce the JSON decision now."

/-- Embedding of `Planner.plan_for_intent`.  `parse` stands for the stdlib
`json.loads` (an external collaborator), `llm` for the configured client; a
`none` from either models the raised exception caught by the source, which
falls back to the deterministic plan.  The function is total: the planner
never raises. -/
def plan_for_intent (parse : String → Option JValue) (llm : Option LLM)
    (intent prompt : String) (ctx : Ctx) : PlanDecision :=
  if ctxHasData ctx then _default_plan intent ctx
  else
    match llm with
    | none => _default_plan intent ctx
    | some g =>
        match g (plannerPrompt prompt) 512 with
        | none => _default_plan intent ctx
        | some raw =>
            match parse (extractJson raw) with
            | none => _default_plan intent ctx
            | some obj =>
                match _validate_decision obj with
                | none => _default_plan intent ctx
                | some nd =>
                    { intent := if truthyJ nd.intent then nd.intent else .str intent,
                      agents := nd.agents,
                      hints := nd.hints,
                      reason := none,
                      cost_estimate := none }

/-- The deterministic chain of step names for each intent, as the
specification states it. -/
def chainNames (intent : String) : List String :=
  if intent = "analyze" then
    ["Planner", "SQLGenerator", "Validator", "SQLRunner", "AnalysisAgent", "Summarizer"]
  else if intent = "sql" then
    ["Planner", "SQLGenerator", "Validator", "SQLRunner", "Summarizer"]
  else if intent = "summarize" then
    ["Planner", "Summarizer"]
  else
    ["Planner", "Summarizer"]

/-- On a context with no data, the deterministic plan follows the
per-intent chain and echoes the requested intent. -/
theorem default_plan_chain (intent : String) (ctx : Ctx)
    (h : ctxHasData ctx = false) :
    ((_default_plan intent ctx).agents.map PStep.name) = chainNames intent ∧
    (_default_plan intent ctx).intent = .str intent := by
  unfold _default_plan chainNames
  rw [if_neg (by simp [h])]
  split_ifs <;> simp

/--
C2: for every intent and every context without pre-existing data, if the
configured LLM call raises, or its completion (after the fence/brace
preprocessing of the source) does not parse as JSON, or the parsed object
fails validation, then `plan_for_intent` returns — it is a total function, so
it never raises — the deterministic default decision for that intent: the
intent equals the requested intent and the agent chain is the 6-step chain
for `analyze`, the 5-step chain for `sql`, the 2-step chain for `summarize`
and the 2-step fallback chain otherwise, each containing a Summarizer step.
-/
theorem c2_planner_fallback (parse : String → Option JValue) (g : LLM)
    (intent prompt : String) (ctx : Ctx)
    (hnd : ctxHasData ctx = false)
    (hfail : g (plannerPrompt prompt) 512 = none
      ∨ (∃ raw, g (plannerPrompt prompt) 512 = some raw ∧ parse (extractJson raw) = none)
      ∨ (∃ raw obj, g (plannerPrompt prompt) 512 = some raw ∧
          parse (extractJson raw) = some obj ∧ _validate_decision obj = none)) :
    plan_for_intent parse (some g) intent prompt ctx = _default_plan intent ctx ∧
    (plan_for_intent parse (some g) intent prompt ctx).intent = .str intent ∧
    ((plan_for_intent parse (some g) intent prompt ctx).agents.map PStep.name)
      = chainNames intent ∧
    (chainNames intent).contains "Summarizer" = true := by
  have heq : plan_for_intent parse (some g) intent prompt ctx = _default_plan intent ctx := by
    rcases hfail with h | ⟨raw, hraw, hparse⟩ | ⟨raw, obj, hraw, hparse, hval⟩
    · simp [plan_for_intent, hnd, h]
    · simp [plan_for_intent, hnd, hraw, hparse]
    · simp [plan_for_intent, hnd, hraw, hparse, hval]
  have hchain := default_plan_chain intent ctx hnd
  refine ⟨heq, ?_, ?_, ?_⟩
  · rw [heq]; exact hchain.2
  · rw [heq]; exact hchain.1
  · unfold chainNames
    split_ifs <;> decide

/-- A JSON parser that fails on every input, and an LLM returning prose. -/
def parse0 : String → Option JValue := fun _ => none

/-- An LLM whose completion is not valid JSON. -/
def llmBad : LLM := fun _ _ => some "this is not json"

/-- An empty run context. -/
def ctx0 : Ctx := {}

/-- Witness for C2: the fallback theorem applied to a concrete failing
parse. -/
theorem c2_planner_fallback_witness :
    ctxHasData ctx0 = false ∧
    parse0 (extractJson "this is not json") = none ∧
    plan_for_intent parse0 (some llmBad) "sql" "show the top rows" ctx0
      = _default_plan "sql" ctx0 ∧
    ((plan_for_intent parse0 (some llmBad) "sql" "show the top rows" ctx0).agents.map PStep.name)
      = ["Planner", "SQLGenerator", "Validator", "SQLRunner", "Summarizer"] := by
  have h := c2_planner_fallback parse0 llmBad "sql" "show the top rows" ctx0 rfl
    (Or.inr (Or.inl ⟨"this is not json", rfl, rfl⟩))
  refine ⟨rfl, rfl, h.1, ?_⟩
  rw [h.2.2.1]
  rfl

/--
C6: for every intent, prompt, parser and optional LLM, when the context
carries data (a present dataframe or a non-empty row preview),
`plan_for_intent` short-circuits to the Summarizer-only decision: agents are
exactly one Summarizer step with empty params, hints carry
`use_existing_df = true`, the reason is the fixed sentence, and the intent
echoes the requested one — the LLM and the parser are never consulted, as the
universally quantified conclusion shows.
-/
theorem c6_planner_data_shortcut (parse : String → Option JValue) (llm : Option LLM)
    (intent prompt : String) (ctx : Ctx) (hd : ctxHasData ctx = true) :
    plan_for_intent parse llm intent prompt ctx = _default_plan intent ctx ∧
    (plan_for_intent parse llm intent prompt ctx).agents = [⟨"Summarizer", .obj .nil⟩] ∧
    (plan_for_intent parse llm intent prompt ctx).hints
      = .obj (.cons "use_existing_df" (.bool true) .nil) ∧
    (plan_for_intent parse llm intent prompt ctx).reason
      = some "context contains data; prefer summarizer" ∧
    (plan_for_intent parse llm intent prompt ctx).intent = .str intent := by
  have heq : plan_for_intent parse llm intent prompt ctx = _default_plan intent ctx := by
    unfold plan_for_intent
    rw [if_pos hd]
  have hd2 : _default_plan intent ctx =
      { intent := .str intent,
        agents := [⟨"Summarizer", .obj .nil⟩],
        hints := .obj (.cons "use_existing_df" (.bool true) .nil),
        reason := some "context contains data; prefer summarizer",
        cost_estimate := some (.obj (.cons "llm_tokens" (.int 20)
          (.cons "scan_bytes_est" (.int 0) .nil))) } := by
    unfold _default_plan
    rw [if_pos hd]
  rw [heq, hd2]
  exact ⟨rfl, rfl, rfl, rfl, rfl⟩

/-- A context carrying a non-empty row preview. -/
def ctxData : Ctx := { rows_preview := some [.int 1] }

/-- Witness for C6: the shortcut theorem applied to a context with a
one-row preview and a configured (never consulted) LLM. -/
theorem c6_planner_data_shortcut_witness :
    ctxHasData ctxData = true ∧
    (plan_for_intent parse0 (some llmBad) "analyze" "p" ctxData).agents
      = [⟨"Summarizer", .obj .nil⟩] ∧
    (plan_for_intent parse0 (some llmBad) "analyze" "p" ctxData).reason
      = some "context contains data; prefer summarizer" := by
  have h := c6_planner_data_shortcut parse0 (some llmBad) "analyze" "p" ctxData rfl
  exact ⟨rfl, h.2.1, h.2.2.2.1⟩

/-! ## Local orchestrator (`src/duckagent/orchestrator.py`)

The `prefer_langgraph` block of `execute` soft-imports the optional runtime;
in the default configuration modelled here (runtime absent, the fully
supported case) the block falls through without effect, so the embedding is
the local execution path.  Node names are modelled as strings (a dict step
with no `name` key is outside the modelled input space). -/

mutual

/-- Python `repr` of a JSON-like value, as used when values are interpolated
into prompt and summary strings.  Approximation: string escaping is not
reproduced and tuples render like lists; no claim inspects these
renderings. -/
def pyRepr : JValue → String
  | .str s => "\x27" ++ s ++ "\x27"
  | .int n => toString n
  | .bool b => if b then "True" else "False"
  | .null => "None"
  | .arr l => "[" ++ pyReprList l ++ "]"
  | .obj o => "\x7b" ++ pyReprObj o ++ "\x7d"

/-- Comma-joined renderings of list elements. -/
def pyReprList : JList → String
  | .nil => ""
  | .cons v .nil => pyRepr v
  | .cons v t => pyRepr v ++ ", " ++ pyReprList t

/-- Comma-joined renderings of dict entries. -/
def pyReprObj : JObj → String
  | .nil => ""
  | .cons k v .nil => "\x27" ++ k ++ "\x27: " ++ pyRepr v
  | .cons k v t => "\x27" ++ k ++ "\x27: " ++ pyRepr v ++ ", " ++ pyReprObj t

end

/-- Python `str` of a JSON-like value. -/
def pyStr : JValue → String
  | .str s => s
  | v => pyRepr v

/-- One step output: a dict over the fixed key vocabulary the agent bodies
produce; a `some` field models a present key. -/
structure Output where
  plan : Option String := none
  sql : Option String := none
  valid : Option Bool := none
  issues : Option (List JValue) := none
  rows_preview : Option (List JValue) := none
  full_df : Option (Option DFrame) := none
  error : Option String := none
  analysis_code : Option JValue := none
  artifacts : Option JValue := none
  metrics : Option JValue := none
  summary : Option String := none
  llm_used : Option Bool := none
  deriving DecidableEq

/-- The mutable run state threaded through step execution. -/
structure RunState where
  conn : Option Conn
  prompt : Option String
  llm : Option LLM
  full_df : Option DFrame
  last_sql : Option String := none
  rows_preview : Option (List JValue) := none
  plan_text : Option String := none

/-- Seeding of the run state from the caller context. -/
def seedState (ctx : Ctx) : RunState :=
  { conn := ctx.conn, prompt := ctx.prompt, llm := ctx.llm, full_df := ctx.full_df }

/-- External collaborators of the orchestrator: the pandas `describe`
computation of the analysis step. -/
structure Externals where
  describe : DFrame → JValue

/-- The first `n` rows of a dataframe. -/
def DFrame.headRows (df : DFrame) (n : Nat) : DFrame :=
  ⟨df.cols, df.rows.take n⟩

/-- Zip a row with the column names into a record dict. -/
def zipRecord : List String → List JValue → JObj
  | c :: cs, v :: vs => .cons c v (zipRecord cs vs)
  | _, _ => .nil

/-- `to_dict(orient="records")` of a dataframe. -/
def DFrame.toRecords (df : DFrame) : List JValue :=
  df.rows.map (fun r => .obj (zipRecord df.cols r))

/-- The prompt string interpolation of a possibly absent prompt
(`str(None)` is `None`). -/
def promptOf (st : RunState) : String :=
  match st.prompt with
  | some s => s
  | none => "None"

/-- The SQL-drafting prompt of `_run_sqlgenerator`. -/
def sqlGenPrompt (prompt limitStr : String) : String :=
  "You are an assistant that generates safe SQL for DuckDB.\n" ++
  "User request: " ++ prompt ++ "\n" ++
  "Produce a single SQL query that answers the request. Limit rows to " ++
  limitStr ++ ".\n"

/-- Append a limit clause when the completion has none. -/
def ensureLimit (sqlText limitStr : String) : String :=
  if subStr "limit" (pyLower sqlText) then sqlText
  else rstripSemi (pyStrip sqlText) ++ " LIMIT " ++ limitStr

/-- The fetchall leg of table discovery, entered when `fetchdf` (or the
indexing after it) raises; any exception here reaches the outer handler and
leaves the table undiscovered. -/
def fetchallPath (cur : Cur) : Option String :=
  match cur.fall with
  | .ok ((v :: _) :: _) => some (pyStr v)
  | .ok ([] :: _) => none
  | .ok [] => none
  | .error _ => none

/-- Best-effort table discovery via `SHOW TABLES` on the data-source
handle. -/
def discoverTable (st : RunState) : Option String :=
  match st.conn with
  | none => none
  | some c =>
      match c.run "SHOW TABLES" with
      | .error _ => none
      | .ok cur =>
          match cur.fdf with
          | some df =>
              if !df.rows.isEmpty then
                match df.cols, df.rows with
                | _ :: _, (v :: _) :: _ => some (pyStr v)
                | _ :: _, [] :: _ => fetchallPath cur
                | [], _ => fetchallPath cur
                | _, [] => none
              else none
          | none => fetchallPath cur

/-- The canned fallback SQL of `_run_sqlgenerator`; the state key
`full_df_table_name` is never seeded by `execute`, so discovery starts at the
connection. -/
def fallbackSqlOut (st : RunState) (limitStr : String) : Output :=
  let t :=
    match discoverTable st with
    | some s => if s == "" then "sample_table" else s
    | none => "sample_table"
  { sql := some ("SELECT * FROM " ++ t ++ " LIMIT " ++ limitStr) }

/-- Embedding of `_run_sqlgenerator`; a non-dict `params` value makes the
`params.get` attribute access raise, which propagates out of `execute`. -/
def runSQLGenerator (params : JValue) (st : RunState) : Except String Output :=
  match params with
  | .obj po =>
      let limit := (po.get "max_rows").getD (.int 10)
      let limitStr := pyStr limit
      .ok
        (match st.llm with
         | some g =>
             match g (sqlGenPrompt (promptOf st) limitStr) 512 with
             | some sqlText => { sql := some (ensureLimit sqlText limitStr) }
             | none => fallbackSqlOut st limitStr
         | none => fallbackSqlOut st limitStr)
  | _ => .error "AttributeError: params object has no attribute get"

/-- The fixed illustrative preview row of `_run_sqlrunner`. -/
def fakeRow : List JValue :=
  [.obj (.cons "col1" (.int 1) (.cons "col2" (.str "example") .nil))]

/-- Embedding of `_run_sqlrunner`. -/
def runSQLRunner (st : RunState) : Output :=
  match st.conn, st.last_sql with
  | some c, some s =>
      if s == "" then { rows_preview := some fakeRow, full_df := some none }
      else
        match c.run s with
        | .error m => { error := some m }
        | .ok cur =>
            match cur.fdf with
            | some df =>
                { rows_preview := some ((df.headRows 20).toRecords),
                  full_df := some (some df) }
            | none =>
                match cur.fall with
                | .ok rows =>
                    { rows_preview := some (rows.map (fun r => .arr (JList.ofList r))),
                      full_df := some none }
                | .error m => { error := some m }
  | _, _ => { rows_preview := some fakeRow, full_df := some none }

/-- Embedding of `_run_analysisagent`; the pandas `describe` computation is
the external collaborator `ext.describe`. -/
def runAnalysis (ext : Externals) (st : RunState) : Output :=
  match st.full_df with
  | some df =>
      { analysis_code := some .null,
        artifacts := some (.obj (.cons "describe" (ext.describe df) .nil)),
        metrics := some (.obj (.cons "n_rows" (.int df.rows.length) .nil)) }
  | none =>
      { analysis_code := some .null,
        artifacts := some (.obj (.cons "note"
          (.str "no dataframe provided to AnalysisAgent") .nil)),
        metrics := some (.obj .nil) }

/-- The dataframe-summary prompt of `_run_summarizer`. -/
def dfSummaryPrompt (plan : String) (nr nc : Nat) (cols : List String)
    (sample : List JValue) : String :=
  "You are an assistant that summarizes a pandas DataFrame.\n" ++
  "Plan: " ++ plan ++ "\n" ++
  "DataFrame shape: " ++ toString nr ++ " rows x " ++ toString nc ++ " cols\n" ++
  "Columns: " ++ pyRepr (.arr (JList.ofList (cols.map JValue.str))) ++ "\n" ++
  "Sample rows: " ++ pyRepr (.arr (JList.ofList sample)) ++ "\n" ++
  "Produce a concise human-readable summary (3-5 sentences)."

/-- The preview-summary prompt of `_run_summarizer`. -/
def previewSummaryPrompt (plan lastSql sampleText : String) : String :=
  "You are an assistant that summarizes analysis findings.\n" ++
  "Plan: " ++ plan ++ "\n" ++
  "SQL: " ++ lastSql ++ "\n" ++
  "Sample rows: " ++ sampleText ++ "\n" ++
  "Produce a concise human-readable summary (3-5 sentences)."

/-- The fixed guidance text when nothing is available to summarize. -/
def noDataMsg : String :=
  "No data available to summarize. Provide a DataFrame via ``Agent.run(..., " ++
  "data=...)`` or run a SQL-producing plan so results can be summarized."

/-- The deterministic dataframe summary text. -/
def dfFallbackSummary (nr nc : Nat) (cols : List String) (sample : List JValue) : String :=
  "DataFrame with " ++ toString nr ++ " rows and " ++ toString nc ++
  " columns. Columns: " ++ pyRepr (.arr (JList.ofList (cols.map JValue.str))) ++
  ". Sample rows: " ++ pyRepr (.arr (JList.ofList sample))

/-- The tail of `_run_summarizer` when no dataframe is present and no LLM
text was produced. -/
def summarizerTail (plan lastSql : String) (rows : List JValue) : Output :=
  if rows.isEmpty then { summary := some noDataMsg, llm_used := some false }
  else
    { summary := some ("Plan: " ++ plan ++ "\nSQL: " ++ lastSql ++
        "\nRows preview count: " ++ toString rows.length),
      llm_used := some false }

/-- Embedding of `_run_summarizer`; a present `full_df` is a dataframe in the
modelled state space, and every LLM failure degrades to the next tier. -/
def runSummarizer (st : RunState) : Output :=
  let plan := st.plan_text.getD "(no plan)"
  let lastSql := st.last_sql.getD "(no sql)"
  let rows := st.rows_preview.getD []
  match st.full_df with
  | some df =>
      let sample := (df.headRows 5).toRecords
      match st.llm with
      | some g =>
          match g (dfSummaryPrompt plan df.rows.length df.cols.length df.cols sample) 300 with
          | some text => { summary := some text, llm_used := some true }
          | none =>
              { summary := some (dfFallbackSummary df.rows.length df.cols.length df.cols sample) }
      | none =>
          { summary := some (dfFallbackSummary df.rows.length df.cols.length df.cols sample) }
  | none =>
      match st.llm with
      | some g =>
          match g (previewSummaryPrompt plan lastSql
              (pyRepr (.arr (JList.ofList (rows.take 5))))) 300 with
          | some text => { summary := some text, llm_used := some true }
          | none => summarizerTail plan lastSql rows
      | none => summarizerTail plan lastSql rows

/-- The keys of the `AGENT_IMPL` registry, in source order. -/
def AGENT_IMPL_names : List String :=
  ["Planner", "SQLGenerator", "Validator", "SQLRunner", "AnalysisAgent", "Summarizer"]

/-- Is a step name registered? -/
def isRegistered (n : String) : Bool :=
  AGENT_IMPL_names.contains n

/-- Dispatch to the registered agent body (callers guard with
`isRegistered`, so the default branch is unreachable). -/
def runAgent (ext : Externals) (name : String) (params : JValue) (st : RunState) :
    Except String Output :=
  match name with
  | "Planner" => .ok { plan := some "planner-produced-plan" }
  | "SQLGenerator" => runSQLGenerator params st
  | "Validator" => .ok { valid := some true, issues := some [] }
  | "SQLRunner" => .ok (runSQLRunner st)
  | "AnalysisAgent" => .ok (runAnalysis ext st)
  | "Summarizer" => .ok (runSummarizer st)
  | _ => .ok { error := some "unknown agent" }

/-- One raw step of a decision handed to `execute`: a bare name string or a
dict with a name and optional params. -/
inductive RawNode where
  | str (s : String)
  | dict (name : String) (params : Option JValue)
  deriving DecidableEq

/-- Normalisation of a raw node to name and params. -/
def normNode : RawNode → String × JValue
  | .str s => (s, .obj .nil)
  | .dict n p => (n, p.getD (.obj .nil))

/-- Python dict update on the ordered results list: an existing key keeps its
position, a new key is appended. -/
def dinsert (k : String) (v : Output) : List (String × Output) → List (String × Output)
  | [] => [(k, v)]
  | (k2, v2) :: rest => if k2 == k then (k, v) :: rest else (k2, v2) :: dinsert k v rest

/-- Lookup in the ordered results list. -/
def dlookup (k : String) : List (String × Output) → Option Output
  | [] => none
  | (k2, v2) :: rest => if k2 == k then some v2 else dlookup k rest

/-- The run-state mutation rule applied to one step output: the recognised
keys `sql`, `rows_preview`, `full_df`, `plan` overwrite the matching state
slots. -/
def applyMutation (st : RunState) (out : Output) : RunState :=
  let st1 := match out.sql with
    | some s => { st with last_sql := some s }
    | none => st
  let st2 := match out.rows_preview with
    | some r => { st1 with rows_preview := some r }
    | none => st1
  let st3 := match out.full_df with
    | some v => { st2 with full_df := v }
    | none => st2
  match out.plan with
  | some p => { st3 with plan_text := some p }
  | none => st3

/-- The recorded result for an unregistered step name. -/
def unknownAgentOutput : Output := { error := some "unknown agent" }

/-- One iteration of the execution loop of `execute`. -/
def execStep (ext : Externals) (acc : List (String × Output) × RunState) (rn : RawNode) :
    Except String (List (String × Output) × RunState) :=
  let n := normNode rn
  if isRegistered n.1 then
    match runAgent ext n.1 n.2 acc.2 with
    | .error e => .error e
    | .ok out => .ok (dinsert n.1 out acc.1, applyMutation acc.2 out)
  else
    .ok (dinsert n.1 unknownAgentOutput acc.1, acc.2)

/-- The execution loop of `execute` over the agent sequence. -/
def execSteps (ext : Externals) :
    List RawNode → List (String × Output) × RunState →
      Except String (List (String × Output) × RunState)
  | [], acc => .ok acc
  | rn :: rest, acc =>
      match execStep ext acc rn with
      | .error e => .error e
      | .ok acc2 => execSteps ext rest acc2

/-- A decision as consumed by the local orchestrator. -/
structure ODecision where
  agents : List RawNode
  deriving DecidableEq

/-- The top-level result of `execute`. -/
structure ExecResult where
  decision : ODecision
  results : List (String × Output)
  summary : List JValue
  summary_text : Option String

/-- Embedding of `orchestrator.execute` (local path; the optional runtime of
the `prefer_langgraph` block is absent in the modelled configuration). -/
def execute (ext : Externals) (d : ODecision) (ctx : Ctx) : Except String ExecResult :=
  match execSteps ext d.agents ([], seedState ctx) with
  | .error e => .error e
  | .ok (results, st) =>
      .ok { decision := d,
            results := results,
            summary := (st.rows_preview.getD []).take 5,
            summary_text :=
              match dlookup "Summarizer" results with
              | some o => o.summary
              | none => none }

/-- The trivial external-collaborator instance used by concrete runs. -/
def ext0 : Externals := ⟨fun _ => .null⟩

/--
C4: an unregistered step name is non-fatal.  For every execution prefix and
suffix, executing an unregistered step records `error: unknown agent` under
that step's name, leaves the run state unchanged, and continues with the
remaining steps exactly as if they were executed from that same state — and
the handling of the unregistered step itself is a returned value, never a
raised error.  In particular the decision `[\x7bname: A\x7d, \x7bname: B\x7d]`
with neither name registered yields both results as the unknown-agent error
and completes.
-/
theorem c4_unknown_agent :
    (∀ (ext : Externals) (r0 : List (String × Output)) (st0 : RunState)
      (l1 l2 : List RawNode) (rn : RawNode),
      isRegistered (normNode rn).1 = false →
      execSteps ext (l1 ++ rn :: l2) (r0, st0) =
        (execSteps ext l1 (r0, st0)).bind
          (fun acc => execSteps ext l2
            (dinsert (normNode rn).1 unknownAgentOutput acc.1, acc.2))) ∧
    (execute ext0 ⟨[.dict "A" none, .dict "B" none]⟩ ctx0).map ExecResult.results
      = .ok [("A", unknownAgentOutput), ("B", unknownAgentOutput)] := by
  constructor
  · intro ext r0 st0 l1 l2 rn h
    induction l1 generalizing r0 st0 with
    | nil =>
        simp [execSteps, execStep, h, Except.bind]
    | cons a t ih =>
        cases h2 : execStep ext (r0, st0) a with
        | error e => simp [execSteps, h2, Except.bind]
        | ok acc2 =>
            have := ih acc2.1 acc2.2
            simpa [execSteps, h2, Except.bind] using this
  · rfl

/-- Witness for C4: the continuation equation applied to a concrete decision
whose first step has the unregistered name `X`. -/
theorem c4_unknown_agent_witness :
    isRegistered "X" = false ∧
    execSteps ext0 [RawNode.dict "X" none, RawNode.str "Planner"] ([], seedState ctx0) =
      (execSteps ext0 [] ([], seedState ctx0)).bind
        (fun acc => execSteps ext0 [RawNode.str "Planner"]
          (dinsert "X" unknownAgentOutput acc.1, acc.2)) :=
  ⟨by decide,
   c4_unknown_agent.1 ext0 [] (seedState ctx0) [] [RawNode.str "Planner"]
     (RawNode.dict "X" none) (by decide)⟩

/--
C9: a SQLRunner step run without a data-source handle, or without a truthy
current SQL text, and also when the query executes but `fetchdf` raises while
`fetchall` yields rows, produces an output whose `full_df` key is present
with value `None` alongside a row preview, so the mutation rule overwrites
the run-state dataframe slot with `None`: a dataframe seeded from the caller
context does not survive such a step.
-/
theorem c9_sqlrunner_clears_df (st : RunState)
    (h : st.conn = none ∨ st.last_sql = none ∨ st.last_sql = some "" ∨
      (∃ (c : Conn) (cur : Cur) (rows : List (List JValue)) (s : String),
        st.conn = some c ∧ st.last_sql = some s ∧ s ≠ "" ∧
        c.run s = .ok cur ∧ cur.fdf = none ∧ cur.fall = .ok rows)) :
    (runSQLRunner st).full_df = some none ∧
    (runSQLRunner st).rows_preview.isSome = true ∧
    (applyMutation st (runSQLRunner st)).full_df = none := by
  have hout : (runSQLRunner st).full_df = some none ∧
      (runSQLRunner st).rows_preview.isSome = true := by
    rcases h with hc | hs | hs | ⟨c, cur, rows, s, hc, hs, hne, hrun, hdf, hall⟩
    · cases hsql : st.last_sql <;> simp [runSQLRunner, hc, hsql]
    · cases hconn : st.conn <;> simp [runSQLRunner, hconn, hs]
    · cases hconn : st.conn <;> simp [runSQLRunner, hconn, hs]
    · simp [runSQLRunner, hc, hs, hne, hrun, hdf, hall]
  refine ⟨hout.1, hout.2, ?_⟩
  have h2 := hout.1
  unfold applyMutation
  cases hsq : (runSQLRunner st).sql <;>
    cases hrp : (runSQLRunner st).rows_preview <;>
      cases hpl : (runSQLRunner st).plan <;>
        simp [hsq, hrp, hpl, h2]

/-- A one-cell dataframe. -/
def dfW : DFrame := ⟨["a"], [[.int 1]]⟩

/-- A run state seeded with a dataframe but no handle and no SQL. -/
def stW : RunState := { conn := none, prompt := none, llm := none, full_df := some dfW }

/-- Witness for C9: a seeded dataframe does not survive a SQLRunner step run
without handle and SQL; the placeholder preview is produced. -/
theorem c9_sqlrunner_clears_df_witness :
    stW.full_df = some dfW ∧
    (applyMutation stW (runSQLRunner stW)).full_df = none ∧
    (runSQLRunner stW).rows_preview = some fakeRow := by
  have h := c9_sqlrunner_clears_df stW (Or.inl rfl)
  exact ⟨rfl, h.2.2, by decide⟩

/-! ## Graph adapter (`src/duckagent/adapters/langgraph_adapter.py`)

The adapter is modelled in the default configuration: no `langgraph` runtime
and no `langgraph_sdk` client are importable, so `run_decision_graph` takes
its local fallback path (the other two paths are dead code here, exactly as
when the optional packages are absent).  The best-effort LangSmith upload is
guarded by an environment credential that is absent in this configuration,
and trace timestamps come from the external wall clock, so neither appears in
the modelled return value. -/

/-- One agent entry of a decision as consumed by the adapter (a dict with a
name and optional params). -/
structure AStep where
  name : String
  params : Option JValue := none
  deriving DecidableEq

/-- A decision as consumed by the adapter. -/
structure ADecision where
  intent : Option String := none
  agents : List AStep
  deriving DecidableEq

/-- A serializable graph node record. -/
structure GNode where
  id : String
  name : String
  meta : JValue
  deriving DecidableEq

/-- A runtime node: the serializable record plus the originating step, whose
bound callable is the local wrapper `localWrap` below. -/
structure RTNode where
  id : String
  name : String
  meta : JValue
  step : AStep
  deriving DecidableEq

/-- The node meta block: `a.get("params", \x7b\x7d) or \x7b\x7d`. -/
def metaOf (a : AStep) : JValue :=
  match a.params with
  | some p => if truthyJ p then p else .obj .nil
  | none => .obj .nil

/-- Serializable nodes with stable ids `node_\x7bi\x7d_\x7bname\x7d`. -/
def buildGNodes (i : Nat) : List AStep → List GNode
  | [] => []
  | a :: t =>
      ⟨"node_" ++ toString i ++ "_" ++ a.name, a.name, metaOf a⟩ :: buildGNodes (i + 1) t

/-- Runtime nodes with the same ids, keeping the originating step. -/
def buildRTNodes (i : Nat) : List AStep → List RTNode
  | [] => []
  | a :: t =>
      ⟨"node_" ++ toString i ++ "_" ++ a.name, a.name, metaOf a, a⟩ :: buildRTNodes (i + 1) t

/-- Edges between adjacent nodes (linear chain). -/
def adjEdges : List GNode → List (String × String)
  | a :: b :: t => (a.id, b.id) :: adjEdges (b :: t)
  | _ => []

/-- Embedding of `build_runtime_graph`: serializable nodes, linear edges and
runtime nodes. -/
def build_runtime_graph (d : ADecision) :
    List GNode × List (String × String) × List RTNode :=
  let gn := buildGNodes 0 d.agents
  (gn, adjEdges gn, buildRTNodes 0 d.agents)

/-- The runtime nodes materialised for a decision. -/
def runtimeNodesOf (d : ADecision) : List RTNode :=
  (build_runtime_graph d).2.2

/-- The bound callable of a node when no external implementation is supplied:
run the local orchestrator on a one-step decision against the shared
context. -/
def localWrap (ext : Externals) (a : AStep) (ctx : Ctx) : Except String ExecResult :=
  execute ext ⟨[.dict a.name a.params]⟩ ctx

/-- The JSON-visible snapshot of the shared context dict; opaque runtime
objects (handle, client, dataframe), which `_redact` passes through
unchanged, are rendered as inert null leaves. -/
def ctxToJV (ctx : Ctx) : JValue :=
  .obj (.cons "conn" .null
    (.cons "prompt" (match ctx.prompt with | some s => .str s | none => .null)
      (.cons "llm" .null
        (.cons "full_df" .null
          (.cons "rows_preview"
            (match ctx.rows_preview with
             | some l => .arr (JList.ofList l)
             | none => .null) .nil)))))

/-- The snapshot entries of a step output, present keys only. -/
def outputEntries (o : Output) : List (String × JValue) :=
  (match o.plan with | some s => [("plan", JValue.str s)] | none => []) ++
  (match o.sql with | some s => [("sql", JValue.str s)] | none => []) ++
  (match o.valid with | some b => [("valid", JValue.bool b)] | none => []) ++
  (match o.issues with | some l => [("issues", JValue.arr (JList.ofList l))] | none => []) ++
  (match o.rows_preview with | some l => [("rows_preview", JValue.arr (JList.ofList l))] | none => []) ++
  (match o.full_df with | some _ => [("full_df", JValue.null)] | none => []) ++
  (match o.error with | some s => [("error", JValue.str s)] | none => []) ++
  (match o.analysis_code with | some v => [("analysis_code", v)] | none => []) ++
  (match o.artifacts with | some v => [("artifacts", v)] | none => []) ++
  (match o.metrics with | some v => [("metrics", v)] | none => []) ++
  (match o.summary with | some s => [("summary", JValue.str s)] | none => []) ++
  (match o.llm_used with | some b => [("llm_used", JValue.bool b)] | none => [])

/-- The snapshot of a step output. -/
def outputToJV (o : Output) : JValue :=
  .obj (JObj.ofList (outputEntries o))

/-- The snapshot of a raw node. -/
def rawNodeToJV : RawNode → JValue
  | .str s => .str s
  | .dict n p =>
      .obj (.cons "name" (.str n)
        (match p with | some v => .cons "params" v .nil | none => .nil))

/-- The snapshot of an orchestrator result. -/
def execResultToJV (r : ExecResult) : JValue :=
  .obj (.cons "decision"
      (.obj (.cons "agents" (.arr (JList.ofList (r.decision.agents.map rawNodeToJV))) .nil))
    (.cons "results"
      (.obj (JObj.ofList (r.results.map (fun p => (p.1, outputToJV p.2)))))
      (.cons "summary" (.arr (JList.ofList r.summary))
        (match r.summary_text with
         | some s => .cons "summary_text" (.str s) .nil
         | none => .nil))))

/-- The input payload captured for a node trace. -/
def inPayloadJV (ctx : Ctx) (meta : JValue) : JValue :=
  .obj (.cons "state" (ctxToJV ctx) (.cons "params" meta .nil))

/-- One trace record (timestamps and duration, taken from the external
clock, are outside the model). -/
structure Trace where
  id : String
  name : String
  meta : JValue
  input : JValue
  output : JValue
  status : String
  deriving DecidableEq

/-- The per-node entry of the fallback result map. -/
structure NodeRes where
  status : String
  output : Except String ExecResult

/-- The shape returned by the local fallback:
`\x7bexecution: \x7bstatus, results\x7d, node_traces\x7d`. -/
structure RunResult where
  execution_status : String
  results : List (String × NodeRes)
  node_traces : List Trace

/-- Does the node callable raise on this context? -/
def nodeErr (ext : Externals) (ctx : Ctx) (n : RTNode) : Bool :=
  match localWrap ext n.step ctx with
  | .error _ => true
  | .ok _ => false

/-- The trace recorded for one executed node. -/
def mkTrace (ext : Externals) (ctx : Ctx) (n : RTNode) : Trace :=
  match localWrap ext n.step ctx with
  | .ok r =>
      ⟨n.id, n.name, n.meta, redact (inPayloadJV ctx n.meta),
        redact (execResultToJV r), "success"⟩
  | .error m =>
      ⟨n.id, n.name, n.meta, redact (inPayloadJV ctx n.meta),
        redact (.obj (.cons "error" (.str m) .nil)), "error"⟩

/-- The result-map entry recorded for one executed node. -/
def mkNodeRes (ext : Externals) (ctx : Ctx) (n : RTNode) : String × NodeRes :=
  match localWrap ext n.step ctx with
  | .ok r => (n.id, ⟨"success", .ok r⟩)
  | .error m => (n.id, ⟨"error", .error m⟩)

/-- The fallback loop of `run_decision_graph`: run each node callable once
against the shared context, append one trace and one result per executed
node, and break at the first error. -/
def fallbackLoop (ext : Externals) (ctx : Ctx) :
    List RTNode → List Trace × List (String × NodeRes)
  | [] => ([], [])
  | n :: rest =>
      match localWrap ext n.step ctx with
      | .ok r =>
          let t : Trace := ⟨n.id, n.name, n.meta, redact (inPayloadJV ctx n.meta),
            redact (execResultToJV r), "success"⟩
          let tr := fallbackLoop ext ctx rest
          (t :: tr.1, (n.id, ⟨"success", .ok r⟩) :: tr.2)
      | .error m =>
          ([⟨n.id, n.name, n.meta, redact (inPayloadJV ctx n.meta),
              redact (.obj (.cons "error" (.str m) .nil)), "error"⟩],
           [(n.id, ⟨"error", .error m⟩)])

/-- Embedding of `run_decision_graph` in the modelled no-runtime
configuration: materialise, then run the local fallback path. -/
def run_decision_graph (ext : Externals) (d : ADecision) (ctx : Ctx) : RunResult :=
  let rt := runtimeNodesOf d
  let tr := fallbackLoop ext ctx rt
  ⟨"completed", tr.2, tr.1⟩

/-- The executed prefix of the node list: everything before the first
erroring node, plus that node. -/
def execCut (ext : Externals) (ctx : Ctx) : List RTNode → List RTNode
  | [] => []
  | n :: t => if nodeErr ext ctx n then [n] else n :: execCut ext ctx t

/-- The fallback loop is the executed prefix, traced and recorded node by
node. -/
theorem fallbackLoop_eq_cut (ext : Externals) (ctx : Ctx) :
    ∀ l : List RTNode,
      fallbackLoop ext ctx l =
        ((execCut ext ctx l).map (mkTrace ext ctx),
         (execCut ext ctx l).map (mkNodeRes ext ctx)) := by
  intro l
  induction l with
  | nil => rfl
  | cons n t ih =>
      cases hlw : localWrap ext n.step ctx with
      | ok r =>
          have hne : nodeErr ext ctx n = false := by simp [nodeErr, hlw]
          simp [fallbackLoop, execCut, hlw, hne, ih, mkTrace, mkNodeRes]
      | error m =>
          have hne : nodeErr ext ctx n = true := by simp [nodeErr, hlw]
          simp [fallbackLoop, execCut, hlw, hne, mkTrace, mkNodeRes]

/-- With no erroring node, the executed prefix is the whole list. -/
theorem execCut_all_ok (ext : Externals) (ctx : Ctx) :
    ∀ l : List RTNode, (∀ m ∈ l, nodeErr ext ctx m = false) →
      execCut ext ctx l = l := by
  intro l
  induction l with
  | nil => intro _; rfl
  | cons n t ih =>
      intro h
      have hn := h n (List.mem_cons_self n t)
      simp [execCut, hn, ih (fun m hm => h m (List.mem_cons_of_mem n hm))]

/-- The executed prefix stops at the first erroring node. -/
theorem execCut_stops (ext : Externals) (ctx : Ctx) :
    ∀ (l1 : List RTNode) (n : RTNode) (l2 : List RTNode),
      (∀ m ∈ l1, nodeErr ext ctx m = false) → nodeErr ext ctx n = true →
      execCut ext ctx (l1 ++ n :: l2) = l1 ++ [n] := by
  intro l1
  induction l1 with
  | nil =>
      intro n l2 _ hn
      simp [execCut, hn]
  | cons m t ih =>
      intro n l2 hok hn
      have hm := hok m (List.mem_cons_self m t)
      simp only [List.cons_append, execCut, hm, if_neg]
      simp [ih n l2 (fun x hx => hok x (List.mem_cons_of_mem m hx)) hn]

/--
C5: in the local fallback path (the configuration with no remote runtime),
`run_decision_graph` executes the materialised nodes one at a time through
each node's local wrapper; the executed nodes are exactly the prefix up to
and including the first node whose callable raises; each executed node gets
exactly one trace, whose status is `error` exactly when the callable raised
and `success` otherwise, and whose input and output are redacted snapshots;
the result map holds one status/output entry per executed node; no node after
the first error is executed or traced; and the returned value has the shape
`\x7bexecution: \x7bstatus: completed, results\x7d, node_traces\x7d`.
-/
theorem c5_local_fallback (ext : Externals) (d : ADecision) (ctx : Ctx) :
    (run_decision_graph ext d ctx).execution_status = "completed" ∧
    (run_decision_graph ext d ctx).node_traces
      = (execCut ext ctx (runtimeNodesOf d)).map (mkTrace ext ctx) ∧
    (run_decision_graph ext d ctx).results
      = (execCut ext ctx (runtimeNodesOf d)).map (mkNodeRes ext ctx) ∧
    (∀ n : RTNode,
      (mkTrace ext ctx n).status = (if nodeErr ext ctx n then "error" else "success") ∧
      (mkTrace ext ctx n).input = redact (inPayloadJV ctx n.meta)) ∧
    (∀ (l1 : List RTNode) (n : RTNode) (l2 : List RTNode),
      runtimeNodesOf d = l1 ++ n :: l2 →
      (∀ m ∈ l1, nodeErr ext ctx m = false) → nodeErr ext ctx n = true →
      (run_decision_graph ext d ctx).node_traces = (l1 ++ [n]).map (mkTrace ext ctx)) ∧
    ((∀ m ∈ runtimeNodesOf d, nodeErr ext ctx m = false) →
      (run_decision_graph ext d ctx).node_traces
        = (runtimeNodesOf d).map (mkTrace ext ctx)) := by
  have hrun : run_decision_graph ext d ctx =
      ⟨"completed",
       (execCut ext ctx (runtimeNodesOf d)).map (mkNodeRes ext ctx),
       (execCut ext ctx (runtimeNodesOf d)).map (mkTrace ext ctx)⟩ := by
    simp only [run_decision_graph, fallbackLoop_eq_cut]
  refine ⟨by rw [hrun], by rw [hrun], by rw [hrun], ?_, ?_, ?_⟩
  · intro n
    cases hlw : localWrap ext n.step ctx with
    | ok r => simp [mkTrace, nodeErr, hlw]
    | error m => simp [mkTrace, nodeErr, hlw]
  · intro l1 n l2 hdec hok hn
    rw [hrun]
    simp only
    rw [hdec, execCut_stops ext ctx l1 n l2 hok hn]
  · intro hok
    rw [hrun]
    simp only
    rw [execCut_all_ok ext ctx _ hok]

/-- A decision whose first step makes the local wrapper raise: its
SQLGenerator params value is not a dict. -/
def d5 : ADecision := { agents := [⟨"SQLGenerator", some (.int 5)⟩, ⟨"Planner", none⟩] }

/-- The first materialised node of `d5`. -/
def n5a : RTNode :=
  ⟨"node_0_SQLGenerator", "SQLGenerator", .int 5, ⟨"SQLGenerator", some (.int 5)⟩⟩

/-- The second materialised node of `d5`. -/
def n5b : RTNode := ⟨"node_1_Planner", "Planner", .obj .nil, ⟨"Planner", none⟩⟩

/-- Witness for C5: on `d5` the first node errors, so exactly one trace is
recorded, with status `error`, and the second node is never traced. -/
theorem c5_local_fallback_witness :
    nodeErr ext0 ctx0 n5a = true ∧
    (run_decision_graph ext0 d5 ctx0).node_traces = [mkTrace ext0 ctx0 n5a] ∧
    (mkTrace ext0 ctx0 n5a).status = "error" ∧
    (run_decision_graph ext0 d5 ctx0).execution_status = "completed" := by
  have h := c5_local_fallback ext0 d5 ctx0
  have hne : nodeErr ext0 ctx0 n5a = true := by decide
  have hdec : runtimeNodesOf d5 = [] ++ n5a :: [n5b] := rfl
  refine ⟨hne, ?_, ?_, h.1⟩
  · have := h.2.2.2.2.1 [] n5a [n5b] hdec (fun m hm => absurd hm (List.not_mem_nil m)) hne
    simpa using this
  · have h4 := (h.2.2.2.1 n5a).1
    rw [h4, hne]
    rfl
